import Mathlib

/-!
Verification of the pgen retrieval layer (tensorqtl/pgen.py) against its
specification.  The module is shallowly embedded: numeric genotype values are
modelled as exact integers, the pgen binary file is modelled by the abstract
`Store` that the external pgenlib decoder exposes, and Python exceptions are
modelled by the `PyErr` type with fallible code returning `Except PyErr`.
-/

/-- Error taxonomy of the embedded code. `keyError` models Python KeyError
(dict lookup miss), `valueError` models Python/numpy/pandas ValueError
(list.index miss, negative buffer dimensions, DataFrame shape mismatch),
`rangeError` is the specification's name for an invalid-bounds error class,
and `decoderError` models a RuntimeError raised by the external pgenlib
decoder. -/
inductive PyErr where
  | keyError : String → PyErr
  | valueError : String → PyErr
  | rangeError : String → PyErr
  | decoderError : String → PyErr
deriving DecidableEq

/-- Abstract content of a pgen binary store, as the external decoder exposes
it: a raw sample count and, for every variant index and raw sample position,
a dosage value and the two allele codes (the codes that occupy positions 2n
and 2n+1 of the decoder's interleaved allele buffer for sample n). -/
structure Store where
  rawSampleCt : Nat
  dosage : Int → Nat → Int
  allele1 : Int → Nat → Int
  allele2 : Int → Nat → Int

/-- Boolean test that a sample-index list is strictly increasing; this is the
precondition pgenlib places on `sample_subset`. -/
def strictIncr : List Nat → Bool
  | [] => true
  | [_] => true
  | a :: b :: rest => decide (a < b) && strictIncr (b :: rest)

/-- Validity of an optional sample subset for the decoder: absent, or
strictly increasing. -/
def subsetOk : Option (List Nat) → Bool
  | none => true
  | some s => strictIncr s

/-- Message of the error pgenlib raises on an unsorted sample subset. -/
def decoderSubsetMsg : String := "sample_subset is not in strictly increasing order"

/-- A decoding session of the external pgenlib reader, scoped to a single
query: the store plus the optional sample subset it was opened with. -/
structure Session where
  store : Store
  subset : Option (List Nat)

/-- Constructor of the external pgenlib PgenReader: per its documented
contract the optional sample subset must be in strictly increasing order and
the constructor raises a RuntimeError (here `decoderError`) otherwise. -/
def PgenReader.openReader (store : Store) (sample_subset : Option (List Nat)) :
    Except PyErr Session :=
  match sample_subset with
  | none => .ok { store := store, subset := none }
  | some s =>
    if strictIncr s then .ok { store := store, subset := some s }
    else .error (.decoderError decoderSubsetMsg)

/-- The raw-store positions of the samples a session decodes, in order:
all raw positions when no subset was given, otherwise the subset itself. -/
def Session.sampleList (r : Session) : List Nat :=
  match r.subset with
  | none => List.range r.store.rawSampleCt
  | some s => s

/-- Decoded dosage vector of one variant over the session's samples. -/
def Session.readDosages (r : Session) (variant_idx : Int) : List Int :=
  r.sampleList.map (fun s => r.store.dosage variant_idx s)

/-- Interleaves two per-sample functions over a sample list: elements 2n and
2n+1 of the result correspond to sample n. -/
def interleaveMap (f g : Nat → Int) : List Nat → List Int
  | [] => []
  | s :: rest => f s :: g s :: interleaveMap f g rest

/-- Decoded interleaved allele buffer of one variant: width 2 × sample count,
elements 2n and 2n+1 are the two allele codes of sample n. -/
def Session.readAlleles (r : Session) (variant_idx : Int) : List Int :=
  interleaveMap (r.store.allele1 variant_idx) (r.store.allele2 variant_idx) r.sampleList

/-- read_dosages: open a reader scoped to the call, then decode one variant's
dosages into a buffer of the active sample count. -/
def pgen.read_dosages (pgen_path : Store) (variant_idx : Int)
    (sample_subset : Option (List Nat)) : Except PyErr (List Int) :=
  match PgenReader.openReader pgen_path sample_subset with
  | .error e => .error e
  | .ok r => .ok (r.readDosages variant_idx)

/-- read_alleles: open a reader scoped to the call, then decode one variant's
interleaved allele buffer of width 2 × sample count. -/
def pgen.read_alleles (pgen_path : Store) (variant_idx : Int)
    (sample_subset : Option (List Nat)) : Except PyErr (List Int) :=
  match PgenReader.openReader pgen_path sample_subset with
  | .error e => .error e
  | .ok r => .ok (r.readAlleles variant_idx)

/-- read_dosages_list: open a reader scoped to the call, then decode each
listed variant index into one row, preserving the given order. -/
def pgen.read_dosages_list (pgen_path : Store) (variant_idxs : List Int)
    (sample_subset : Option (List Nat)) : Except PyErr (List (List Int)) :=
  match PgenReader.openReader pgen_path sample_subset with
  | .error e => .error e
  | .ok r => .ok (variant_idxs.map r.readDosages)

/-- read_alleles_list: open a reader scoped to the call, then decode each
listed variant index into one interleaved allele row. -/
def pgen.read_alleles_list (pgen_path : Store) (variant_idxs : List Int)
    (sample_subset : Option (List Nat)) : Except PyErr (List (List Int)) :=
  match PgenReader.openReader pgen_path sample_subset with
  | .error e => .error e
  | .ok r => .ok (variant_idxs.map r.readAlleles)

/-- read_dosages_range: open a reader scoped to the call, allocate a buffer of
end_idx - start_idx + 1 rows (numpy raises ValueError on a negative dimension)
and decode the contiguous range, calling the decoder with exclusive end
end_idx + 1. -/
def pgen.read_dosages_range (pgen_path : Store) (start_idx end_idx : Int)
    (sample_subset : Option (List Nat)) : Except PyErr (List (List Int)) :=
  match PgenReader.openReader pgen_path sample_subset with
  | .error e => .error e
  | .ok r =>
    let num_variants : Int := end_idx - start_idx + 1
    if num_variants < 0 then .error (.valueError "negative dimensions are not allowed")
    else .ok ((List.range num_variants.toNat).map
      (fun j : Nat => r.readDosages (start_idx + (j : Int))))

/-- read_alleles_range: allele analogue of read_dosages_range. -/
def pgen.read_alleles_range (pgen_path : Store) (start_idx end_idx : Int)
    (sample_subset : Option (List Nat)) : Except PyErr (List (List Int)) :=
  match PgenReader.openReader pgen_path sample_subset with
  | .error e => .error e
  | .ok r =>
    let num_variants : Int := end_idx - start_idx + 1
    if num_variants < 0 then .error (.valueError "negative dimensions are not allowed")
    else .ok ((List.range num_variants.toNat).map
      (fun j : Nat => r.readAlleles (start_idx + (j : Int))))

/-- A labeled pandas DataFrame: row labels, column labels and the numeric
values. -/
structure DataFrame where
  index : List String
  columns : List String
  values : List (List Int)
deriving DecidableEq

/-- pandas DataFrame construction from a 2-d buffer with explicit index and
columns: raises ValueError when the buffer shape does not match the labels. -/
def mkDataFrame (values : List (List Int)) (index columns : List String) :
    Except PyErr DataFrame :=
  if values.length = index.length ∧ ∀ row ∈ values, row.length = columns.length then
    .ok { index := index, columns := columns, values := values }
  else .error (.valueError "Shape of passed values does not match indices")

/-- Even-position elements of a list, numpy slice ::2. -/
def evens : List Int → List Int
  | [] => []
  | [a] => [a]
  | a :: _ :: rest => a :: evens rest

/-- Odd-position elements of a list, numpy slice 1::2. -/
def odds : List Int → List Int
  | [] => []
  | [_] => []
  | _ :: b :: rest => b :: odds rest

/-- Python dict assignment d[k] = v: overwrite the binding of k if present,
append it otherwise. -/
def dictInsert (m : List (String × Nat)) (k : String) (v : Nat) : List (String × Nat) :=
  match m with
  | [] => [(k, v)]
  | (k0, v0) :: rest => if k0 = k then (k, v) :: rest else (k0, v0) :: dictInsert rest k v

/-- Python dict lookup d.get(k). -/
def dictLookup (m : List (String × Nat)) (k : String) : Option Nat :=
  match m with
  | [] => none
  | (k0, v0) :: rest => if k0 = k then some v0 else dictLookup rest k

/-- Python dict subscript d[k]: KeyError when the key is absent. -/
def dictLookupExc (m : List (String × Nat)) (k : String) : Except PyErr Nat :=
  match dictLookup m k with
  | some v => .ok v
  | none => .error (.keyError k)

/-- The dict comprehension of Pgen's constructor, iterating enumerate of the
variant ids and assigning id -> position, later assignments overwriting
earlier ones. -/
def buildVariantIdxDict (ids : List String) : List (String × Nat) :=
  ids.enum.foldl (fun m kv => dictInsert m kv.2 kv.1) []

/-- Python list.index: position of the first exact match, ValueError when the
value is absent. -/
def listIndex (l : List String) (v : String) : Except PyErr Nat :=
  match l with
  | [] => .error (.valueError "value is not in list")
  | x :: xs =>
    if x = v then .ok 0
    else
      match listIndex xs v with
      | .ok j => .ok (j + 1)
      | .error e => .error e

/-- Total version of `listIndex` for stating results (0 when absent). -/
def firstIndexD (l : List String) (v : String) : Nat :=
  match listIndex l v with
  | .ok j => j
  | .error _ => 0

/-- A Python list comprehension applying a fallible function left to right,
propagating the first raised error. -/
def mapExcept (f : α → Except PyErr β) : List α → Except PyErr (List β)
  | [] => .ok []
  | x :: xs =>
    match f x with
    | .error e => .error e
    | .ok y =>
      match mapExcept f xs with
      | .error e => .error e
      | .ok ys => .ok (y :: ys)

/-- Comparison of (position, id) pairs by position. -/
def pairLe (a b : Nat × String) : Prop := a.1 ≤ b.1

instance : DecidableRel pairLe := fun a b => Nat.decLe a.1 b.1

instance : IsTotal (Nat × String) pairLe := ⟨fun a b => Nat.le_total a.1 b.1⟩

instance : IsTrans (Nat × String) pairLe := ⟨fun _ _ _ h1 h2 => Nat.le_trans h1 h2⟩

/-- The joint reordering of set_samples' sort branch: np.argsort of the
position list followed by permuting the position list and the id list by the
same argsort permutation is modelled as sorting the zipped (position, id)
pairs by position (the pairing of position j with id j is preserved either
way, and the result is the same ascending-by-position sequence of pairs). -/
def sortPairs (ps : List (Nat × String)) : List (Nat × String) :=
  List.insertionSort pairLe ps

/-- The session state of the Pgen class: variant sidecar ids and the id
index, sample sidecar ids, the active sample selection, and the content of
the pgen file. -/
structure Pgen where
  pvar_ids : List String
  num_variants : Nat
  variant_idx_dict : List (String × Nat)
  sample_id_list : List String
  sample_ids : List String
  sample_idxs : Option (List Nat)
  pgen_file : Store

/-- Pgen.set_samples: resolve the requested sample ids to store positions via
list.index; with sort=True permute both the position sequence and the id
sequence jointly by ascending position, otherwise keep both in request
order. -/
def Pgen.set_samples (p : Pgen) (sample_ids : Option (List String)) (sort : Bool) :
    Except PyErr Pgen :=
  match sample_ids with
  | none => .ok { p with sample_ids := p.sample_id_list, sample_idxs := none }
  | some ids =>
    match mapExcept (listIndex p.sample_id_list) ids with
    | .error e => .error e
    | .ok sample_idxs =>
      if sort then
        let ps := sortPairs (sample_idxs.zip ids)
        .ok { p with sample_ids := ps.map (fun q => q.2),
                     sample_idxs := some (ps.map (fun q => q.1)) }
      else
        .ok { p with sample_ids := ids, sample_idxs := some sample_idxs }

/-- Pgen.__init__: store the sidecar tables, build the variant-id index by
the last-wins dict comprehension, then resolve the initial sample selection
with set_samples (whose sort parameter defaults to True). -/
def Pgen.init (pvar_ids sample_id_list : List String) (pgen_file : Store)
    (select_samples : Option (List String)) : Except PyErr Pgen :=
  Pgen.set_samples
    { pvar_ids := pvar_ids
      num_variants := pvar_ids.length
      variant_idx_dict := buildVariantIdxDict pvar_ids
      sample_id_list := sample_id_list
      sample_ids := []
      sample_idxs := none
      pgen_file := pgen_file }
    select_samples true

/-- Pgen.read_dosages_list: resolve the variant ids through the index, then
call the module-level read_dosages_list with sample_subset=None (as the
source does), and label the result with the variant ids and the
session's sample_ids. -/
def Pgen.read_dosages_list (p : Pgen) (variant_ids : List String) :
    Except PyErr DataFrame :=
  match mapExcept (dictLookupExc p.variant_idx_dict) variant_ids with
  | .error e => .error e
  | .ok variant_idxs =>
    match pgen.read_dosages_list p.pgen_file (variant_idxs.map Int.ofNat) none with
    | .error e => .error e
    | .ok dosages => mkDataFrame dosages variant_ids p.sample_ids

/-- Pgen.read_alleles_list: resolve the variant ids through the index, call
the module-level read_alleles_list with the cached sample subset, then split
the interleaved buffer into the even-position and odd-position matrices. -/
def Pgen.read_alleles_list (p : Pgen) (variant_ids : List String) :
    Except PyErr (DataFrame × DataFrame) :=
  match mapExcept (dictLookupExc p.variant_idx_dict) variant_ids with
  | .error e => .error e
  | .ok variant_idxs =>
    match pgen.read_alleles_list p.pgen_file (variant_idxs.map Int.ofNat) p.sample_idxs with
    | .error e => .error e
    | .ok alleles =>
      match mkDataFrame (alleles.map evens) variant_ids p.sample_ids with
      | .error e => .error e
      | .ok df1 =>
        match mkDataFrame (alleles.map odds) variant_ids p.sample_ids with
        | .error e => .error e
        | .ok df2 => .ok (df1, df2)

/-- Pgen.load_dosages_df: full-table retrieval through read_dosages_range
over indices 0 .. num_variants - 1 with the cached sample subset, labeled
with the pvar ids and the session's sample_ids. -/
def Pgen.load_dosages_df (p : Pgen) : Except PyErr DataFrame :=
  match pgen.read_dosages_range p.pgen_file 0 ((p.num_variants : Int) - 1) p.sample_idxs with
  | .error e => .error e
  | .ok dosages => mkDataFrame dosages p.pvar_ids p.sample_ids

/-- Module-level load_dosages_df: construct a session and load the full
table. -/
def pgen.load_dosages_df (pvar_ids sample_id_list : List String) (pgen_file : Store)
    (select_samples : Option (List String)) : Except PyErr DataFrame :=
  match Pgen.init pvar_ids sample_id_list pgen_file select_samples with
  | .error e => .error e
  | .ok p => Pgen.load_dosages_df p

/-- The sample positions the session's cached selection decodes: all raw
positions when no subset is cached, otherwise the cached subset. -/
def Pgen.selList (p : Pgen) : List Nat :=
  match p.sample_idxs with
  | none => List.range p.pgen_file.rawSampleCt
  | some s => s

/-- Total reading of a variant-id index entry as an Int variant index
(0 when absent); used only to state results. -/
def dictD (m : List (String × Nat)) (k : String) : Int :=
  match dictLookup m k with
  | some j => (j : Int)
  | none => 0

/-- Result projection: the cached position sequence of a set_samples result
(none when the call raised). -/
def idxsOf : Except PyErr Pgen → Option (List Nat)
  | .ok p => p.sample_idxs
  | .error _ => none

/-- Result projection: the presented id sequence of a set_samples result. -/
def idsOf : Except PyErr Pgen → Option (List String)
  | .ok p => some p.sample_ids
  | .error _ => none

/-- Result projection: whether a call raised a ValueError. -/
def errIsValueError : Except PyErr α → Bool
  | .error (.valueError _) => true
  | _ => false

/-- Result projection: whether a call raised at all. -/
def errIsError : Except PyErr α → Bool
  | .error _ => true
  | _ => false

/-- Result projection: the key of a raised KeyError, none otherwise. -/
def errKeyOf : Except PyErr α → Option String
  | .error (.keyError m) => some m
  | _ => none

/-- Result projection: the first matrix of a successful read_alleles_list
call. -/
def df1Of : Except PyErr (DataFrame × DataFrame) → Option DataFrame
  | .ok dfs => some dfs.1
  | .error _ => none

/-- Result projection: the second matrix of a successful read_alleles_list
call. -/
def df2Of : Except PyErr (DataFrame × DataFrame) → Option DataFrame
  | .ok dfs => some dfs.2
  | .error _ => none

/-- Opening a reader succeeds exactly on a valid (absent or strictly
increasing) subset, and records store and subset unchanged. -/
theorem openReader_ok {store : Store} {subset : Option (List Nat)}
    (h : subsetOk subset = true) :
    PgenReader.openReader store subset = .ok { store := store, subset := subset } := by
  cases subset with
  | none => rfl
  | some s =>
    simp only [subsetOk] at h
    simp [PgenReader.openReader, h]

/-- The even positions of an interleaved buffer are the first components. -/
theorem evens_interleaveMap (f g : Nat → Int) :
    ∀ l : List Nat, evens (interleaveMap f g l) = l.map f
  | [] => rfl
  | s :: rest => by
    simp [interleaveMap, evens, evens_interleaveMap f g rest]

/-- The odd positions of an interleaved buffer are the second components. -/
theorem odds_interleaveMap (f g : Nat → Int) :
    ∀ l : List Nat, odds (interleaveMap f g l) = l.map g
  | [] => rfl
  | s :: rest => by
    simp [interleaveMap, odds, odds_interleaveMap f g rest]

/-- A fallible comprehension over elements on which f succeeds pointwise
computes the pointwise map. -/
theorem mapExcept_eq_map {f : α → Except PyErr β} {g : α → β} {l : List α}
    (h : ∀ x ∈ l, f x = .ok (g x)) : mapExcept f l = .ok (l.map g) := by
  induction l with
  | nil => rfl
  | cons x xs ih =>
    have hx := h x (List.mem_cons_self x xs)
    have hxs := ih (fun y hy => h y (List.mem_cons_of_mem x hy))
    simp [mapExcept, hx, hxs]

/-- A successful fallible comprehension relates input and output pointwise. -/
theorem mapExcept_ok_forall2 {f : α → Except PyErr β} {l : List α} {ys : List β}
    (h : mapExcept f l = .ok ys) : List.Forall₂ (fun x y => f x = .ok y) l ys := by
  induction l generalizing ys with
  | nil =>
    simp only [mapExcept] at h
    cases h
    exact List.Forall₂.nil
  | cons x xs ih =>
    simp only [mapExcept] at h
    cases hx : f x with
    | error e => rw [hx] at h; cases h
    | ok y =>
      rw [hx] at h
      cases hxs : mapExcept f xs with
      | error e => rw [hxs] at h; cases h
      | ok ys2 =>
        rw [hxs] at h
        cases h
        exact List.Forall₂.cons hx (ih hxs)

/-- A fallible comprehension containing a failing element raises, and the
raised error is one the elementwise function can raise. -/
theorem mapExcept_error_prop {f : α → Except PyErr β} {P : PyErr → Prop}
    (hf : ∀ x e, f x = .error e → P e) :
    ∀ {l : List α} {x : α}, x ∈ l → (∀ b, f x ≠ .ok b) →
      ∃ e, mapExcept f l = .error e ∧ P e := by
  intro l
  induction l with
  | nil => intro x hx; cases hx
  | cons y ys ih =>
    intro x hx hbad
    cases hy : f y with
    | error e => exact ⟨e, by simp [mapExcept, hy], hf y e hy⟩
    | ok b =>
      have hxy : x ∈ ys := by
        cases hx with
        | head => exact absurd hy (hbad b)
        | tail _ h => exact h
      obtain ⟨e, he, hpe⟩ := ih hxy hbad
      exact ⟨e, by simp [mapExcept, hy, he], hpe⟩

/-- list.index misses exactly the absent values, raising ValueError. -/
theorem listIndex_not_mem {l : List String} {v : String} (h : v ∉ l) :
    listIndex l v = .error (.valueError "value is not in list") := by
  induction l with
  | nil => rfl
  | cons x xs ih =>
    have hx : ¬ x = v := fun hh => h (hh ▸ List.mem_cons_self x xs)
    have hxs : v ∉ xs := fun hh => h (List.mem_cons_of_mem x hh)
    simp [listIndex, hx, ih hxs]

/-- list.index succeeds on present values. -/
theorem listIndex_ok_of_mem {l : List String} {v : String} (h : v ∈ l) :
    ∃ j, listIndex l v = .ok j := by
  induction l with
  | nil => cases h
  | cons x xs ih =>
    by_cases hx : x = v
    · exact ⟨0, by simp [listIndex, hx]⟩
    · obtain ⟨j, hj⟩ :=
        ih (by cases h with
            | head => exact absurd rfl hx
            | tail _ hh => exact hh)
      exact ⟨j + 1, by simp [listIndex, hx, hj]⟩

/-- A successful list.index result is the first exact match. -/
theorem listIndex_ok_first {l : List String} {v : String} {j : Nat}
    (h : listIndex l v = .ok j) :
    l[j]? = some v ∧ ∀ i, i < j → l[i]? ≠ some v := by
  induction l generalizing j with
  | nil => simp [listIndex] at h
  | cons x xs ih =>
    by_cases hx : x = v
    · simp only [listIndex, if_pos hx] at h
      cases h
      subst hx
      exact ⟨by simp, fun i hi => absurd hi (Nat.not_lt_zero i)⟩
    · simp only [listIndex, if_neg hx] at h
      cases hrec : listIndex xs v with
      | error e => rw [hrec] at h; cases h
      | ok j0 =>
        rw [hrec] at h
        cases h
        obtain ⟨h1, h2⟩ := ih hrec
        refine ⟨by simpa using h1, ?_⟩
        intro i hi
        cases i with
        | zero => simpa using fun hh => hx hh
        | succ i0 =>
          have : i0 < j0 := Nat.lt_of_succ_lt_succ hi
          simpa using h2 i0 this

/-- firstIndexD agrees with a successful list.index call. -/
theorem firstIndexD_eq {l : List String} {v : String} {j : Nat}
    (h : listIndex l v = .ok j) : firstIndexD l v = j := by
  simp [firstIndexD, h]

/-- Resolving a list of present sample ids computes its pointwise first
positions. -/
theorem mapExcept_listIndex {l : List String} {ids : List String}
    (h : ∀ v ∈ ids, v ∈ l) :
    mapExcept (listIndex l) ids = .ok (ids.map (firstIndexD l)) := by
  apply mapExcept_eq_map
  intro x hx
  obtain ⟨j, hj⟩ := listIndex_ok_of_mem (h x hx)
  rw [hj, firstIndexD_eq hj]

/-- Dict assignment then lookup: the assigned key reads the new value, other
keys are untouched. -/
theorem dictLookup_insert (m : List (String × Nat)) (k : String) (v : Nat) (q : String) :
    dictLookup (dictInsert m k v) q = if k = q then some v else dictLookup m q := by
  induction m with
  | nil => by_cases h : k = q <;> simp [dictInsert, dictLookup, h]
  | cons kv rest ih =>
    obtain ⟨k0, v0⟩ := kv
    by_cases h0 : k0 = k
    · subst h0
      by_cases hq : k0 = q <;> simp [dictInsert, dictLookup, hq]
    · by_cases hq : k0 = q
      · subst hq
        have hk : ¬ k = k0 := fun hh => h0 hh.symm
        simp [dictInsert, dictLookup, h0, hk]
      · simp [dictInsert, dictLookup, h0, hq, ih]

/-- Appending one id to the table shifts the built index by one last-wins
assignment at the new position. -/
theorem buildVariantIdxDict_concat (ids : List String) (x : String) (q : String) :
    dictLookup (buildVariantIdxDict (ids ++ [x])) q =
      if x = q then some ids.length else dictLookup (buildVariantIdxDict ids) q := by
  unfold buildVariantIdxDict
  rw [List.enum_append, List.foldl_append]
  show dictLookup
      (List.foldl (fun m kv => dictInsert m kv.2 kv.1)
        (List.foldl (fun m kv => dictInsert m kv.2 kv.1) [] ids.enum)
        (List.enumFrom ids.length [x])) q = _
  simp only [List.enumFrom]
  rw [List.foldl_cons, List.foldl_nil, dictLookup_insert]

/-- The built variant index resolves an id exactly to the last row position
holding it. -/
theorem dictLookup_build_iff (ids : List String) (v : String) (k : Nat) :
    dictLookup (buildVariantIdxDict ids) v = some k ↔
      (ids[k]? = some v ∧ ∀ j, j < ids.length → k < j → ids[j]? ≠ some v) := by
  induction ids using List.reverseRecOn generalizing k with
  | nil =>
    constructor
    · intro h
      simp [buildVariantIdxDict, dictLookup] at h
    · rintro ⟨h1, -⟩
      simp at h1
  | append_singleton ids x ih =>
    rw [buildVariantIdxDict_concat]
    by_cases hx : x = v
    · subst hx
      rw [if_pos rfl]
      constructor
      · intro h
        cases h
        refine ⟨List.getElem?_concat_length ids x, ?_⟩
        intro j hj hkj
        simp only [List.length_append, List.length_singleton] at hj
        exact absurd hkj (by omega)
      · rintro ⟨h1, h2⟩
        rcases Nat.lt_trichotomy k ids.length with hlt | heq | hgt
        · exfalso
          exact h2 ids.length (by simp) hlt (List.getElem?_concat_length ids x)
        · rw [heq]
        · exfalso
          have hnone : (ids ++ [x])[k]? = none := by
            apply List.getElem?_eq_none
            simp only [List.length_append, List.length_singleton]
            omega
          rw [hnone] at h1
          cases h1
    · rw [if_neg hx, ih]
      constructor
      · rintro ⟨h1, h2⟩
        obtain ⟨hk, -⟩ := List.getElem?_eq_some.mp h1
        refine ⟨?_, ?_⟩
        · rw [List.getElem?_append_left hk]
          exact h1
        · intro j hj hkj
          by_cases hjl : j < ids.length
          · rw [List.getElem?_append_left hjl]
            exact h2 j hjl hkj
          · have hje : j = ids.length := by
              simp only [List.length_append, List.length_singleton] at hj
              omega
            subst hje
            rw [List.getElem?_concat_length]
            intro hc
            exact hx (Option.some.inj hc)
      · rintro ⟨h1, h2⟩
        have hk : k < ids.length := by
          by_contra hknot
          push_neg at hknot
          rcases Nat.eq_or_lt_of_le hknot with heq | hlt
          · rw [← heq, List.getElem?_concat_length] at h1
            exact hx (Option.some.inj h1)
          · have hnone : (ids ++ [x])[k]? = none := by
              apply List.getElem?_eq_none
              simp only [List.length_append, List.length_singleton]
              omega
            rw [hnone] at h1
            cases h1
        refine ⟨?_, ?_⟩
        · rw [List.getElem?_append_left hk] at h1
          exact h1
        · intro j hj hkj
          have h3 := h2 j
            (by simp only [List.length_append, List.length_singleton]; omega) hkj
          rw [List.getElem?_append_left hj] at h3
          exact h3

/-- Total Nat reading of a variant-id index entry (0 when absent); used only
to state results. -/
def dictDNat (m : List (String × Nat)) (k : String) : Nat :=
  match dictLookup m k with
  | some j => j
  | none => 0

/-- The Int and Nat total readings of the index agree. -/
theorem dictD_eq (m : List (String × Nat)) (k : String) :
    dictD m k = (dictDNat m k : Int) := by
  unfold dictD dictDNat
  cases dictLookup m k <;> simp

/-- Resolving a list of known variant ids computes its pointwise index
entries. -/
theorem mapExcept_dictLookupExc {m : List (String × Nat)} {ids : List String}
    (h : ∀ v ∈ ids, (dictLookup m v).isSome = true) :
    mapExcept (dictLookupExc m) ids = .ok (ids.map (dictDNat m)) := by
  apply mapExcept_eq_map
  intro x hx
  have hs := h x hx
  cases hm : dictLookup m x with
  | none => rw [hm] at hs; cases hs
  | some j => simp [dictLookupExc, dictDNat, hm]

/-- The joint reordering is a permutation of the zipped pairs. -/
theorem sortPairs_perm (ps : List (Nat × String)) : (sortPairs ps).Perm ps :=
  List.perm_insertionSort pairLe ps

/-- The joint reordering is ascending by position. -/
theorem sortPairs_sorted (ps : List (Nat × String)) :
    List.Pairwise pairLe (sortPairs ps) :=
  List.sorted_insertionSort pairLe ps

/-- Two pairwise-ascending pair lists that are permutations of each other and
have duplicate-free positions are equal. -/
theorem perm_pairwise_nodup_fst_eq :
    ∀ {l1 l2 : List (Nat × String)}, l1.Perm l2 → List.Pairwise pairLe l1 →
      List.Pairwise pairLe l2 → (l1.map Prod.fst).Nodup → l1 = l2 := by
  intro l1
  induction l1 with
  | nil =>
    intro l2 hp _ _ _
    exact hp.symm.eq_nil.symm
  | cons a t1 ih =>
    intro l2 hp hs1 hs2 hnd
    cases l2 with
    | nil => exact absurd hp.eq_nil (by simp)
    | cons b t2 =>
      have hab : a = b := by
        by_contra hne
        have ha2 : a ∈ t2 := by
          have hmem : a ∈ b :: t2 := hp.mem_iff.mp (List.mem_cons_self a t1)
          cases hmem with
          | head => exact absurd rfl hne
          | tail _ h => exact h
        have hb1 : b ∈ t1 := by
          have hmem : b ∈ a :: t1 := hp.symm.mem_iff.mp (List.mem_cons_self b t2)
          cases hmem with
          | head => exact absurd rfl hne
          | tail _ h => exact h
        have h1 : pairLe a b := (List.pairwise_cons.mp hs1).1 b hb1
        have h2 : pairLe b a := (List.pairwise_cons.mp hs2).1 a ha2
        have heq : a.1 = b.1 := Nat.le_antisymm h1 h2
        have hmemf : a.1 ∈ t1.map Prod.fst := by
          rw [heq]
          exact List.mem_map_of_mem Prod.fst hb1
        have hnd2 : (a.1 :: t1.map Prod.fst).Nodup := by simpa using hnd
        exact (List.nodup_cons.mp hnd2).1 hmemf
      subst hab
      have hp2 := hp.cons_inv
      have hrec := ih hp2 (List.pairwise_cons.mp hs1).2 (List.pairwise_cons.mp hs2).2
        (by
          have hnd2 : (a.1 :: t1.map Prod.fst).Nodup := by simpa using hnd
          exact (List.nodup_cons.mp hnd2).2)
      rw [hrec]

/-- Zipping a mapped list with the original pairs each element with its
image. -/
theorem map_zip_self (g : String → Nat) (l : List String) :
    (l.map g).zip l = l.map (fun v => (g v, v)) := by
  induction l with
  | nil => rfl
  | cons x xs ih => simp [ih]

/-- A position list pointwise produced by list.index is the map of first
positions. -/
theorem forall2_listIndex_eq_map {ss : List String} {ids : List String} {xs : List Nat}
    (h : List.Forall₂ (fun v j => listIndex ss v = .ok j) ids xs) :
    xs = ids.map (firstIndexD ss) := by
  induction h with
  | nil => rfl
  | cons h1 _ ih => simp [List.map_cons, ih, firstIndexD_eq h1]

/-- Distinct ids have distinct first positions. -/
theorem firstIndexD_inj {ss : List String} {v w : String}
    (hv : v ∈ ss) (hw : w ∈ ss) (h : firstIndexD ss v = firstIndexD ss w) : v = w := by
  obtain ⟨j, hj⟩ := listIndex_ok_of_mem hv
  obtain ⟨i, hi⟩ := listIndex_ok_of_mem hw
  have hjv := (listIndex_ok_first hj).1
  have hiw := (listIndex_ok_first hi).1
  rw [firstIndexD_eq hj, firstIndexD_eq hi] at h
  subst h
  rw [hjv] at hiw
  exact Option.some.inj hiw

/-- DataFrame construction succeeds on shape-consistent input. -/
theorem mkDataFrame_ok {values : List (List Int)} {index columns : List String}
    (h1 : values.length = index.length)
    (h2 : ∀ row ∈ values, row.length = columns.length) :
    mkDataFrame values index columns =
      .ok { index := index, columns := columns, values := values } := by
  rw [mkDataFrame, if_pos ⟨h1, h2⟩]

/-- set_samples on present ids with sort=False stores positions and ids in
request order. -/
theorem set_samples_nosort {p : Pgen} {ids : List String}
    (h : ∀ v ∈ ids, v ∈ p.sample_id_list) :
    Pgen.set_samples p (some ids) false =
      .ok { p with sample_ids := ids,
                   sample_idxs := some (ids.map (firstIndexD p.sample_id_list)) } := by
  rw [Pgen.set_samples, mapExcept_listIndex h]
  rfl

/-- set_samples on present ids with sort=True stores the jointly reordered
pairs. -/
theorem set_samples_sort {p : Pgen} {ids : List String}
    (h : ∀ v ∈ ids, v ∈ p.sample_id_list) :
    Pgen.set_samples p (some ids) true =
      .ok { p with
              sample_ids :=
                (sortPairs ((ids.map (firstIndexD p.sample_id_list)).zip ids)).map
                  (fun q => q.2),
              sample_idxs :=
                some ((sortPairs ((ids.map (firstIndexD p.sample_id_list)).zip ids)).map
                  (fun q => q.1)) } := by
  rw [Pgen.set_samples, mapExcept_listIndex h]
  rfl

/-- A trivial two-sample store used by concrete counterexamples. -/
def store0 : Store :=
  { rawSampleCt := 2, dosage := fun _ _ => 0,
    allele1 := fun _ _ => 0, allele2 := fun _ _ => 0 }

/-- A two-sample store with distinguishable dosage values. -/
def storeD : Store :=
  { rawSampleCt := 2, dosage := fun v s => 10 * v + (s : Int),
    allele1 := fun _ _ => 0, allele2 := fun _ _ => 0 }

/-- A valid-subset range retrieval past the negative-dimension check decodes
one row per index of the inclusive range. -/
theorem read_dosages_range_ok {store : Store} {subset : Option (List Nat)} {s e : Int}
    (hsub : subsetOk subset = true) (hneg : ¬ ((e - s + 1 : Int) < 0)) :
    pgen.read_dosages_range store s e subset =
      .ok ((List.range (e - s + 1).toNat).map
        (fun i : Nat => Session.readDosages { store := store, subset := subset }
          (s + (i : Int)))) := by
  rw [pgen.read_dosages_range, openReader_ok hsub]
  exact if_neg hneg

/-- Allele analogue of the range-success lemma. -/
theorem read_alleles_range_ok {store : Store} {subset : Option (List Nat)} {s e : Int}
    (hsub : subsetOk subset = true) (hneg : ¬ ((e - s + 1 : Int) < 0)) :
    pgen.read_alleles_range store s e subset =
      .ok ((List.range (e - s + 1).toNat).map
        (fun i : Nat => Session.readAlleles { store := store, subset := subset }
          (s + (i : Int)))) := by
  rw [pgen.read_alleles_range, openReader_ok hsub]
  exact if_neg hneg

/-- A valid-subset single retrieval decodes the variant row. -/
theorem read_dosages_one_ok {store : Store} {subset : Option (List Nat)} {v : Int}
    (hsub : subsetOk subset = true) :
    pgen.read_dosages store v subset =
      .ok (Session.readDosages { store := store, subset := subset } v) := by
  rw [pgen.read_dosages, openReader_ok hsub]

/-- C3: for start_idx ≤ end_idx and a valid sample selection, the range
retrieval is end-inclusive: it succeeds with exactly end_idx - start_idx + 1
rows (the decoder is driven with exclusive end end_idx + 1), and row j equals
the single-variant retrieval of the variant at index start_idx + j; in
particular read_dosages_range(2,2) returns exactly the one row
read_dosages(2) returns. -/
theorem c3_range_end_inclusive (store : Store) (subset : Option (List Nat)) (s e : Int)
    (j : Nat) (hsub : subsetOk subset = true) (hse : s ≤ e) (hj : (j : Int) < e - s + 1) :
    ∃ rows, pgen.read_dosages_range store s e subset = .ok rows ∧
      rows.length = (e - s + 1).toNat ∧
      pgen.read_dosages store (s + (j : Int)) subset = .ok (rows.getD j []) := by
  have hneg : ¬ ((e - s + 1 : Int) < 0) := by omega
  refine ⟨_, read_dosages_range_ok hsub hneg, by rw [List.length_map, List.length_range], ?_⟩
  rw [read_dosages_one_ok hsub]
  have hjlen : j < (e - s + 1).toNat := by omega
  have hcell : (((List.range (e - s + 1).toNat).map
      (fun i : Nat => Session.readDosages { store := store, subset := subset }
        (s + (i : Int))))[j]?) =
      some (Session.readDosages { store := store, subset := subset } (s + (j : Int))) := by
    rw [List.getElem?_map, List.getElem?_range hjlen]
    rfl
  rw [List.getD_eq_getElem?_getD, hcell]
  rfl

/-- C3 witness: at a concrete store, the range (2,2) succeeds with exactly
one row, which equals the single retrieval of the variant at index 2. -/
theorem c3_range_end_inclusive_witness :
    ∃ rows, pgen.read_dosages_range storeD 2 2 none = .ok rows ∧
      rows.length = ((2 : Int) - 2 + 1).toNat ∧
      pgen.read_dosages storeD (2 + ((0 : Nat) : Int)) none = .ok (rows.getD 0 []) :=
  c3_range_end_inclusive storeD none 2 2 0 (by decide) (by decide) (by decide)

/-- C4 counterexample: with start_idx = end_idx + 1 the range retrievals
succeed with a zero-row matrix instead of failing, and with
start_idx > end_idx + 1 they fail with a ValueError (numpy negative buffer
dimension), not a RangeError. -/
theorem c4_empty_range_counterexample :
    pgen.read_dosages_range store0 1 0 none = .ok [] ∧
    pgen.read_alleles_range store0 1 0 none = .ok [] ∧
    pgen.read_dosages_range store0 5 3 none =
      .error (.valueError "negative dimensions are not allowed") ∧
    pgen.read_alleles_range store0 5 3 none =
      .error (.valueError "negative dimensions are not allowed") := by
  refine ⟨rfl, rfl, rfl, rfl⟩

/-- C4 amended: for a valid sample selection, a range query with
start_idx = end_idx + 1 returns an empty zero-row matrix without error, and
one with start_idx > end_idx + 1 fails with the ValueError of the negative
numpy buffer dimension; no RangeError is raised in either case. -/
theorem c4_range_bounds_behavior (store : Store) (subset : Option (List Nat)) (s e : Int)
    (hsub : subsetOk subset = true) :
    (s = e + 1 → pgen.read_dosages_range store s e subset = .ok [] ∧
      pgen.read_alleles_range store s e subset = .ok []) ∧
    (e + 1 < s → pgen.read_dosages_range store s e subset =
        .error (.valueError "negative dimensions are not allowed") ∧
      pgen.read_alleles_range store s e subset =
        .error (.valueError "negative dimensions are not allowed")) := by
  constructor
  · intro h
    have hneg : ¬ ((e - s + 1 : Int) < 0) := by omega
    have h0 : ((e - s + 1 : Int)).toNat = 0 := by omega
    constructor
    · rw [read_dosages_range_ok hsub hneg, h0]
      rfl
    · rw [read_alleles_range_ok hsub hneg, h0]
      rfl
  · intro h
    have h0 : ((e - s + 1 : Int) < 0) := by omega
    constructor
    · rw [pgen.read_dosages_range, openReader_ok hsub]
      exact if_pos h0
    · rw [pgen.read_alleles_range, openReader_ok hsub]
      exact if_pos h0

/-- C4 witness: the amended behavior at concrete inputs, one per branch. -/
theorem c4_range_bounds_behavior_witness :
    pgen.read_dosages_range store0 1 0 none = .ok [] ∧
    pgen.read_dosages_range store0 5 3 none =
      .error (.valueError "negative dimensions are not allowed") :=
  ⟨((c4_range_bounds_behavior store0 none 1 0 (by decide)).1 (by decide)).1,
   ((c4_range_bounds_behavior store0 none 5 3 (by decide)).2 (by decide)).1⟩

/-- C5 counterexample: an unsorted sample subset, and one with duplicates,
are not rejected before a decoder invocation: the calls fail with the
decoder session constructor's own error (a decoder RuntimeError), not with a
pre-decoder validation error of this module. -/
theorem c5_no_prevalidation_counterexample :
    pgen.read_dosages store0 0 (some [1, 0]) = .error (.decoderError decoderSubsetMsg) ∧
    pgen.read_dosages_range store0 0 1 (some [0, 0]) =
      .error (.decoderError decoderSubsetMsg) := by
  refine ⟨rfl, rfl⟩

/-- C5 amended: a sample_subset that is not strictly increasing (unsorted or
containing duplicates) makes every retrieval entry point fail, but the
rejection is performed inside the external decoder session constructor, which
every entry point invokes; the module performs no validation of its own
before the decoder. -/
theorem c5_decoder_rejects_subset (store : Store) (s : List Nat) (v si ei : Int)
    (vs : List Int) (h : strictIncr s = false) :
    pgen.read_dosages store v (some s) = .error (.decoderError decoderSubsetMsg) ∧
    pgen.read_alleles store v (some s) = .error (.decoderError decoderSubsetMsg) ∧
    pgen.read_dosages_list store vs (some s) = .error (.decoderError decoderSubsetMsg) ∧
    pgen.read_alleles_list store vs (some s) = .error (.decoderError decoderSubsetMsg) ∧
    pgen.read_dosages_range store si ei (some s) =
      .error (.decoderError decoderSubsetMsg) ∧
    pgen.read_alleles_range store si ei (some s) =
      .error (.decoderError decoderSubsetMsg) := by
  have hopen : PgenReader.openReader store (some s) =
      .error (.decoderError decoderSubsetMsg) := by
    rw [PgenReader.openReader]
    rw [if_neg (by rw [h]; exact Bool.false_ne_true)]
  refine ⟨?_, ?_, ?_, ?_, ?_, ?_⟩
  · rw [pgen.read_dosages, hopen]
  · rw [pgen.read_alleles, hopen]
  · rw [pgen.read_dosages_list, hopen]
  · rw [pgen.read_alleles_list, hopen]
  · rw [pgen.read_dosages_range, hopen]
  · rw [pgen.read_alleles_range, hopen]

/-- C5 witness: the amended behavior at a concrete duplicate subset. -/
theorem c5_decoder_rejects_subset_witness :
    pgen.read_dosages store0 0 (some [2, 2]) = .error (.decoderError decoderSubsetMsg) ∧
    pgen.read_alleles store0 0 (some [2, 2]) = .error (.decoderError decoderSubsetMsg) ∧
    pgen.read_dosages_list store0 [] (some [2, 2]) =
      .error (.decoderError decoderSubsetMsg) ∧
    pgen.read_alleles_list store0 [] (some [2, 2]) =
      .error (.decoderError decoderSubsetMsg) ∧
    pgen.read_dosages_range store0 0 0 (some [2, 2]) =
      .error (.decoderError decoderSubsetMsg) ∧
    pgen.read_alleles_range store0 0 0 (some [2, 2]) =
      .error (.decoderError decoderSubsetMsg) :=
  c5_decoder_rejects_subset store0 [2, 2] 0 0 0 [] (by rfl)

/-- Store of the C1 failing session: one variant, two samples with
distinguishable dosages (sample 0 reads 0, sample 1 reads 7 at variant 0). -/
def store1 : Store :=
  { rawSampleCt := 2, dosage := fun v s => v + 7 * (s : Int),
    allele1 := fun _ _ => 0, allele2 := fun _ _ => 0 }

/-- C1: at a session constructed over store1 with the explicit sample
selection [s1], the batch retrieval Pgen.read_dosages_list passes
sample_subset=None to the decoder - ignoring the cached subset - and then
fails on the DataFrame shape mismatch between the full-width decoded rows
and the subset-width column labels, while the full-table retrieval
Pgen.load_dosages_df honors the cached subset and succeeds; the batch
retrieval is therefore not restricted to the cached active subset and does
not return the corresponding rows of the full-table retrieval. -/
theorem c1_batch_ignores_subset_bug :
    ∃ p, Pgen.init ["v1"] ["s0", "s1"] store1 (some ["s1"]) = .ok p ∧
      Pgen.read_dosages_list p ["v1"] =
        .error (.valueError "Shape of passed values does not match indices") ∧
      Pgen.load_dosages_df p =
        .ok { index := ["v1"], columns := ["s1"], values := [[7]] } := by
  refine ⟨{ pvar_ids := ["v1"], num_variants := 1, variant_idx_dict := [("v1", 0)],
            sample_id_list := ["s0", "s1"], sample_ids := ["s1"],
            sample_idxs := some [1], pgen_file := store1 }, ?_, ?_, ?_⟩ <;> rfl

/-- A concrete two-sample session state (samples a, b in store order) for the
set_samples counterexample. -/
def sessionAB : Pgen :=
  { pvar_ids := ["v"], num_variants := 1, variant_idx_dict := [("v", 0)],
    sample_id_list := ["a", "b"], sample_ids := ["a", "b"], sample_idxs := none,
    pgen_file := store0 }

/-- C2 counterexample: requesting the known ids [b, a] (reverse store order)
with sort=False stores the positional sequence [1, 0], which is not
ascending and differs from the [0, 1] stored with sort=True. -/
theorem c2_sortfalse_counterexample :
    idxsOf (Pgen.set_samples sessionAB (some ["b", "a"]) false) = some [1, 0] ∧
    idxsOf (Pgen.set_samples sessionAB (some ["b", "a"]) true) = some [0, 1] := by
  refine ⟨rfl, rfl⟩

/-- C2 amended: set_samples with sort=False stores the requested ids'
positions in the caller's request order - ascending only when the request is
already in store order - and stores the identifier sequence in the caller's
request order. -/
theorem c2_sortfalse_request_order (p : Pgen) (ids : List String)
    (h : ∀ v ∈ ids, v ∈ p.sample_id_list) :
    idsOf (Pgen.set_samples p (some ids) false) = some ids ∧
    idxsOf (Pgen.set_samples p (some ids) false) =
      some (ids.map (firstIndexD p.sample_id_list)) := by
  rw [set_samples_nosort h]
  exact ⟨rfl, rfl⟩

/-- C2 witness: the amended behavior at the concrete reversed request. -/
theorem c2_sortfalse_request_order_witness :
    idsOf (Pgen.set_samples sessionAB (some ["b", "a"]) false) = some ["b", "a"] ∧
    idxsOf (Pgen.set_samples sessionAB (some ["b", "a"]) false) =
      some (["b", "a"].map (firstIndexD sessionAB.sample_id_list)) :=
  c2_sortfalse_request_order sessionAB ["b", "a"] (by decide)

/-- A session whose sample table is [x, a], for the sample KeyError claim. -/
def sessionXA : Pgen :=
  { pvar_ids := ["v"], num_variants := 1, variant_idx_dict := [("v", 0)],
    sample_id_list := ["x", "a"], sample_ids := ["x", "a"], sample_idxs := none,
    pgen_file := store0 }

/-- C6 counterexample: resolving a selection containing the unknown sample id
b fails, but with a ValueError (Python list.index), not a KeyError. -/
theorem c6_keyerror_counterexample :
    errIsError (Pgen.set_samples sessionXA (some ["b"]) true) = true ∧
    errIsValueError (Pgen.set_samples sessionXA (some ["b"]) true) = true ∧
    errKeyOf (Pgen.set_samples sessionXA (some ["b"]) true) = none := by
  refine ⟨rfl, rfl, rfl⟩

/-- list.index raises only its fixed ValueError. -/
theorem listIndex_error_shape {l : List String} {v : String} {e : PyErr}
    (h : listIndex l v = .error e) : e = .valueError "value is not in list" := by
  induction l with
  | nil =>
    rw [listIndex] at h
    cases h
    rfl
  | cons x xs ih =>
    rw [listIndex] at h
    by_cases hx : x = v
    · rw [if_pos hx] at h
      cases h
    · rw [if_neg hx] at h
      cases hrec : listIndex xs v with
      | ok j => rw [hrec] at h; cases h
      | error e2 =>
        rw [hrec] at h
        cases h
        exact ih hrec

/-- C6 amended: resolving a selection containing an unknown sample id fails
with a ValueError (Python list.index), not a KeyError, and a present
identifier resolves to the position of its first exact match in the sample
identifier sequence. -/
theorem c6_valueerror_first_match (p : Pgen) (ids : List String) (so : Bool)
    (u w : String) (i : Nat) (hu1 : u ∈ ids) (hu2 : u ∉ p.sample_id_list)
    (hw : w ∈ p.sample_id_list) (hi : i < firstIndexD p.sample_id_list w) :
    errIsValueError (Pgen.set_samples p (some ids) so) = true ∧
    listIndex p.sample_id_list w = .ok (firstIndexD p.sample_id_list w) ∧
    p.sample_id_list[firstIndexD p.sample_id_list w]? = some w ∧
    p.sample_id_list[i]? ≠ some w := by
  obtain ⟨j, hj⟩ := listIndex_ok_of_mem hw
  have hfw := firstIndexD_eq hj
  obtain ⟨hget, hfirst⟩ := listIndex_ok_first hj
  have hbad : ∀ b, listIndex p.sample_id_list u ≠ .ok b := by
    intro b hb
    rw [listIndex_not_mem hu2] at hb
    cases hb
  obtain ⟨e, he, m, hm⟩ :=
    mapExcept_error_prop (f := listIndex p.sample_id_list)
      (P := fun e => ∃ m, e = .valueError m)
      (fun x e hx => ⟨"value is not in list", listIndex_error_shape hx⟩) hu1 hbad
  subst hm
  have hss : Pgen.set_samples p (some ids) so = .error (.valueError m) := by
    rw [Pgen.set_samples, he]
  refine ⟨by rw [hss]; rfl, ?_, ?_, ?_⟩
  · rw [hfw]
    exact hj
  · rw [hfw]
    exact hget
  · rw [hfw] at hi
    exact hfirst i hi

/-- C6 witness: the amended behavior at the concrete session, with b unknown
and a present at first-match position 1. -/
theorem c6_valueerror_first_match_witness :
    errIsValueError (Pgen.set_samples sessionXA (some ["b"]) true) = true ∧
    listIndex sessionXA.sample_id_list "a" =
      .ok (firstIndexD sessionXA.sample_id_list "a") ∧
    sessionXA.sample_id_list[firstIndexD sessionXA.sample_id_list "a"]? = some "a" ∧
    sessionXA.sample_id_list[0]? ≠ some "a" :=
  c6_valueerror_first_match sessionXA ["b"] true "b" "a" 0
    (by decide) (by decide) (by decide) (by decide)

/-- Dict subscript raises only the KeyError of the missing key. -/
theorem dictLookupExc_error_shape {m : List (String × Nat)} {k : String} {e : PyErr}
    (h : dictLookupExc m k = .error e) : e = .keyError k := by
  rw [dictLookupExc] at h
  cases hm : dictLookup m k with
  | some j => rw [hm] at h; cases h
  | none => rw [hm] at h; cases h; rfl

/-- C7: an id-keyed retrieval containing an unknown variant id fails with a
KeyError, and the failure is identical for any store content: the decoder is
never consulted and no output buffer is produced. -/
theorem c7_unknown_variant_keyerror (p : Pgen) (st1 st2 : Store) (ids : List String)
    (v : String) (hv : v ∈ ids) (hun : dictLookup p.variant_idx_dict v = none) :
    (errKeyOf (Pgen.read_dosages_list { p with pgen_file := st1 } ids)).isSome = true ∧
    errKeyOf (Pgen.read_dosages_list { p with pgen_file := st2 } ids) =
      errKeyOf (Pgen.read_dosages_list { p with pgen_file := st1 } ids) ∧
    errKeyOf (Pgen.read_alleles_list { p with pgen_file := st1 } ids) =
      errKeyOf (Pgen.read_dosages_list { p with pgen_file := st1 } ids) ∧
    errKeyOf (Pgen.read_alleles_list { p with pgen_file := st2 } ids) =
      errKeyOf (Pgen.read_dosages_list { p with pgen_file := st1 } ids) := by
  have hbad : ∀ b, dictLookupExc p.variant_idx_dict v ≠ .ok b := by
    intro b hb
    rw [dictLookupExc, hun] at hb
    cases hb
  obtain ⟨e, he, m, hm⟩ :=
    mapExcept_error_prop (f := dictLookupExc p.variant_idx_dict)
      (P := fun e => ∃ m, e = .keyError m)
      (fun x e hx => ⟨x, dictLookupExc_error_shape hx⟩) hv hbad
  subst hm
  have hd : ∀ st : Store,
      Pgen.read_dosages_list { p with pgen_file := st } ids = .error (.keyError m) := by
    intro st
    rw [Pgen.read_dosages_list]
    rw [show ({ p with pgen_file := st } : Pgen).variant_idx_dict = p.variant_idx_dict
      from rfl, he]
  have ha : ∀ st : Store,
      Pgen.read_alleles_list { p with pgen_file := st } ids = .error (.keyError m) := by
    intro st
    rw [Pgen.read_alleles_list]
    rw [show ({ p with pgen_file := st } : Pgen).variant_idx_dict = p.variant_idx_dict
      from rfl, he]
  rw [hd st1, hd st2, ha st1, ha st2]
  exact ⟨rfl, rfl, rfl, rfl⟩

/-- C7 witness: the unknown variant id w at the concrete session, under two
different stores. -/
theorem c7_unknown_variant_keyerror_witness :
    (errKeyOf (Pgen.read_dosages_list { sessionAB with pgen_file := store0 } ["w"])).isSome
      = true ∧
    errKeyOf (Pgen.read_dosages_list { sessionAB with pgen_file := storeD } ["w"]) =
      errKeyOf (Pgen.read_dosages_list { sessionAB with pgen_file := store0 } ["w"]) ∧
    errKeyOf (Pgen.read_alleles_list { sessionAB with pgen_file := store0 } ["w"]) =
      errKeyOf (Pgen.read_dosages_list { sessionAB with pgen_file := store0 } ["w"]) ∧
    errKeyOf (Pgen.read_alleles_list { sessionAB with pgen_file := storeD } ["w"]) =
      errKeyOf (Pgen.read_dosages_list { sessionAB with pgen_file := store0 } ["w"]) :=
  c7_unknown_variant_keyerror sessionAB store0 storeD ["w"] "w" (by decide) (by rfl)

/-- A valid-subset list retrieval of alleles decodes one interleaved row per
listed variant index. -/
theorem read_alleles_list_ok {store : Store} {subset : Option (List Nat)}
    (hsub : subsetOk subset = true) (vis : List Int) :
    pgen.read_alleles_list store vis subset =
      .ok (vis.map (Session.readAlleles { store := store, subset := subset })) := by
  rw [pgen.read_alleles_list, openReader_ok hsub]

/-- C8: for a list of known variant ids and a shape-consistent cached
selection, read_alleles_list splits the decoder's interleaved buffer of width
2 × sample count by even/odd de-interleaving: the first matrix takes the even
positions (the first allele codes), the second the odd positions (the second
allele codes), labeled with the variant ids and the session's sample ids. -/
theorem c8_allele_deinterleave (p : Pgen) (ids : List String)
    (hids : ∀ v ∈ ids, (dictLookup p.variant_idx_dict v).isSome = true)
    (hsub : subsetOk p.sample_idxs = true)
    (hcols : p.sample_ids.length = (Pgen.selList p).length) :
    df1Of (Pgen.read_alleles_list p ids) =
      some { index := ids, columns := p.sample_ids,
             values := ids.map (fun v => (Pgen.selList p).map
               (fun s => p.pgen_file.allele1 (dictD p.variant_idx_dict v) s)) } ∧
    df2Of (Pgen.read_alleles_list p ids) =
      some { index := ids, columns := p.sample_ids,
             values := ids.map (fun v => (Pgen.selList p).map
               (fun s => p.pgen_file.allele2 (dictD p.variant_idx_dict v) s)) } := by
  have hmap := mapExcept_dictLookupExc hids
  have hsl : Session.sampleList { store := p.pgen_file, subset := p.sample_idxs } =
      Pgen.selList p := rfl
  have halleles := @read_alleles_list_ok p.pgen_file p.sample_idxs hsub
    ((ids.map (dictDNat p.variant_idx_dict)).map Int.ofNat)
  have hvals1 : (((ids.map (dictDNat p.variant_idx_dict)).map Int.ofNat).map
      (Session.readAlleles { store := p.pgen_file, subset := p.sample_idxs })).map evens =
      ids.map (fun v => (Pgen.selList p).map
        (fun s => p.pgen_file.allele1 (dictD p.variant_idx_dict v) s)) := by
    rw [List.map_map, List.map_map, List.map_map]
    congr 1
    funext v
    simp only [Function.comp_apply]
    rw [Session.readAlleles, evens_interleaveMap, hsl, dictD_eq]
    rfl
  have hvals2 : (((ids.map (dictDNat p.variant_idx_dict)).map Int.ofNat).map
      (Session.readAlleles { store := p.pgen_file, subset := p.sample_idxs })).map odds =
      ids.map (fun v => (Pgen.selList p).map
        (fun s => p.pgen_file.allele2 (dictD p.variant_idx_dict v) s)) := by
    rw [List.map_map, List.map_map, List.map_map]
    congr 1
    funext v
    simp only [Function.comp_apply]
    rw [Session.readAlleles, odds_interleaveMap, hsl, dictD_eq]
    rfl
  have hdf1 : mkDataFrame (ids.map (fun v => (Pgen.selList p).map
      (fun s => p.pgen_file.allele1 (dictD p.variant_idx_dict v) s))) ids p.sample_ids =
      .ok { index := ids, columns := p.sample_ids,
            values := ids.map (fun v => (Pgen.selList p).map
              (fun s => p.pgen_file.allele1 (dictD p.variant_idx_dict v) s)) } :=
    mkDataFrame_ok (by rw [List.length_map])
      (by intro row hrow
          obtain ⟨v, hv, hveq⟩ := List.mem_map.mp hrow
          rw [← hveq, List.length_map]
          exact hcols.symm)
  have hdf2 : mkDataFrame (ids.map (fun v => (Pgen.selList p).map
      (fun s => p.pgen_file.allele2 (dictD p.variant_idx_dict v) s))) ids p.sample_ids =
      .ok { index := ids, columns := p.sample_ids,
            values := ids.map (fun v => (Pgen.selList p).map
              (fun s => p.pgen_file.allele2 (dictD p.variant_idx_dict v) s)) } :=
    mkDataFrame_ok (by rw [List.length_map])
      (by intro row hrow
          obtain ⟨v, hv, hveq⟩ := List.mem_map.mp hrow
          rw [← hveq, List.length_map]
          exact hcols.symm)
  have hfinal : Pgen.read_alleles_list p ids = .ok
      ({ index := ids, columns := p.sample_ids,
         values := ids.map (fun v => (Pgen.selList p).map
           (fun s => p.pgen_file.allele1 (dictD p.variant_idx_dict v) s)) },
       { index := ids, columns := p.sample_ids,
         values := ids.map (fun v => (Pgen.selList p).map
           (fun s => p.pgen_file.allele2 (dictD p.variant_idx_dict v) s)) }) := by
    simp only [Pgen.read_alleles_list, hmap, halleles, hvals1, hvals2, hdf1, hdf2]
  rw [hfinal]
  exact ⟨rfl, rfl⟩

/-- Three-sample store whose variant 0 carries the raw interleaved allele
codes [0, 1, -9, -9, 1, 1]. -/
def storeA : Store :=
  { rawSampleCt := 3, dosage := fun _ _ => 0,
    allele1 := fun _ s => if s = 0 then 0 else if s = 1 then -9 else 1,
    allele2 := fun _ s => if s = 0 then 1 else if s = 1 then -9 else 1 }

/-- Session over storeA with all three samples active. -/
def sessionA3 : Pgen :=
  { pvar_ids := ["v"], num_variants := 1, variant_idx_dict := [("v", 0)],
    sample_id_list := ["s0", "s1", "s2"], sample_ids := ["s0", "s1", "s2"],
    sample_idxs := none, pgen_file := storeA }

/-- C8 witness: the claim's concrete example, raw codes [0,1,-9,-9,1,1] over
three samples split into first-allele [0,-9,1] and second-allele [1,-9,1]. -/
theorem c8_allele_deinterleave_witness :
    df1Of (Pgen.read_alleles_list sessionA3 ["v"]) =
      some { index := ["v"], columns := ["s0", "s1", "s2"], values := [[0, -9, 1]] } ∧
    df2Of (Pgen.read_alleles_list sessionA3 ["v"]) =
      some { index := ["v"], columns := ["s0", "s1", "s2"], values := [[1, -9, 1]] } :=
  c8_allele_deinterleave sessionA3 ["v"] (by decide) (by decide) (by decide)

/-- C9: the variant index built at construction maps an id whose last
occurrence is row k to k (last-wins on duplicate ids), and for a
duplicate-free table it is the exact inverse of the row-position-to-id
function. -/
theorem c9_last_wins_index (ids : List String) (v : String) (k : Nat) (i : Nat)
    (hi : i < ids.length) (hk : ids[k]? = some v)
    (hlast : ∀ j, j < ids.length → k < j → ids[j]? ≠ some v) :
    dictLookup (buildVariantIdxDict ids) v = some k ∧
    (ids.Nodup → dictLookup (buildVariantIdxDict ids) (ids.get ⟨i, hi⟩) = some i) := by
  constructor
  · exact (dictLookup_build_iff ids v k).mpr ⟨hk, hlast⟩
  · intro hnd
    apply (dictLookup_build_iff ids (ids.get ⟨i, hi⟩) i).mpr
    constructor
    · simp [List.getElem?_eq_getElem hi, List.get_eq_getElem]
    · intro j hj hij hc
      obtain ⟨hjl, heq⟩ := List.getElem?_eq_some.mp hc
      have hinj := List.nodup_iff_injective_getElem.mp hnd
      have hfin : (⟨j, hjl⟩ : Fin ids.length) = ⟨i, hi⟩ := by
        apply hinj
        simpa [List.get_eq_getElem] using heq
      have hji : j = i := by
        have := congrArg Fin.val hfin
        simpa using this
      omega

/-- C9 witness: on [a, b, a] the duplicate id a resolves to its last row 2;
on the duplicate-free [a, b] the index inverts row positions (a resolves to
row 0). -/
theorem c9_last_wins_index_witness :
    dictLookup (buildVariantIdxDict ["a", "b", "a"]) "a" = some 2 ∧
    dictLookup (buildVariantIdxDict ["a", "b"]) "a" = some 0 := by
  constructor
  · exact (c9_last_wins_index ["a", "b", "a"] "a" 2 0 (by decide) (by decide)
      (by decide)).1
  · exact (c9_last_wins_index ["a", "b"] "b" 1 0 (by decide) (by decide)
      (by decide)).2 (by decide)

/-- All ids of a successful id-resolution are present in the table. -/
theorem mapExcept_listIndex_mem {ss sel : List String} {xs : List Nat}
    (h : mapExcept (listIndex ss) sel = .ok xs) : ∀ v ∈ sel, v ∈ ss := by
  intro v hv
  by_contra hnv
  have hbad : ∀ b, listIndex ss v ≠ .ok b := by
    intro b hb
    rw [listIndex_not_mem hnv] at hb
    cases hb
  obtain ⟨e, he, -⟩ := mapExcept_error_prop (f := listIndex ss) (P := fun _ => True)
    (fun _ _ _ => trivial) hv hbad
  rw [he] at h
  cases h

/-- Construction with no selection stores the full sample table in store
order with no cached subset. -/
theorem init_none_ok (pvar ss : List String) (store : Store) :
    Pgen.init pvar ss store none = .ok
      { pvar_ids := pvar, num_variants := pvar.length,
        variant_idx_dict := buildVariantIdxDict pvar, sample_id_list := ss,
        sample_ids := ss, sample_idxs := none, pgen_file := store } :=
  rfl

/-- Construction with a fully-present selection resolves it with sort=True,
storing the jointly position-sorted pairs. -/
theorem init_some_ok {pvar ss : List String} {store : Store} {sel : List String}
    (h : ∀ v ∈ sel, v ∈ ss) :
    Pgen.init pvar ss store (some sel) = .ok
      { pvar_ids := pvar, num_variants := pvar.length,
        variant_idx_dict := buildVariantIdxDict pvar, sample_id_list := ss,
        sample_ids := (sortPairs ((sel.map (firstIndexD ss)).zip sel)).map (fun t => t.2),
        sample_idxs := some ((sortPairs ((sel.map (firstIndexD ss)).zip sel)).map
          (fun t => t.1)),
        pgen_file := store } := by
  rw [Pgen.init]
  exact set_samples_sort h

/-- A successful construction with a selection implies every selected id is
in the sample table. -/
theorem init_some_mem {pvar ss : List String} {store : Store} {sel : List String}
    {q : Pgen} (h : Pgen.init pvar ss store (some sel) = .ok q) : ∀ v ∈ sel, v ∈ ss := by
  simp only [Pgen.init, Pgen.set_samples] at h
  cases hm : mapExcept (listIndex ss) sel with
  | error e =>
    rw [hm] at h
    cases h
  | ok xs => exact mapExcept_listIndex_mem hm

/-- C10: construction always resolves the selection with sort=True: after
init the stored positional sequence is either none (no selection, full table
presented in store order) or ascending, and for a duplicate-free selection
the result is determined by the set of selected samples alone - any
permutation of the request constructs the same presented ids and positions -
so request-order presentation is unobtainable at construction time. -/
theorem c10_init_sorted_selection (pvar ss : List String) (store : Store)
    (sel sel2 : List String) (p q r : Pgen) (l : List Nat)
    (h0 : Pgen.init pvar ss store none = .ok p)
    (h1 : Pgen.init pvar ss store (some sel) = .ok q)
    (h2 : q.sample_idxs = some l)
    (hperm : sel.Perm sel2) (hnd : sel.Nodup)
    (h3 : Pgen.init pvar ss store (some sel2) = .ok r) :
    (p.sample_idxs = none ∧ p.sample_ids = ss) ∧
    List.Pairwise (· ≤ ·) l ∧
    (r.sample_ids = q.sample_ids ∧ r.sample_idxs = q.sample_idxs) := by
  have hmem1 : ∀ v ∈ sel, v ∈ ss := init_some_mem h1
  have hmem2 : ∀ v ∈ sel2, v ∈ ss := init_some_mem h3
  have hp : p =
      { pvar_ids := pvar, num_variants := pvar.length,
        variant_idx_dict := buildVariantIdxDict pvar, sample_id_list := ss,
        sample_ids := ss, sample_idxs := none, pgen_file := store } := by
    rw [init_none_ok] at h0
    exact (Except.ok.inj h0).symm
  have hq : q =
      { pvar_ids := pvar, num_variants := pvar.length,
        variant_idx_dict := buildVariantIdxDict pvar, sample_id_list := ss,
        sample_ids := (sortPairs ((sel.map (firstIndexD ss)).zip sel)).map (fun t => t.2),
        sample_idxs := some ((sortPairs ((sel.map (firstIndexD ss)).zip sel)).map
          (fun t => t.1)),
        pgen_file := store } := by
    rw [init_some_ok hmem1] at h1
    exact (Except.ok.inj h1).symm
  have hr : r =
      { pvar_ids := pvar, num_variants := pvar.length,
        variant_idx_dict := buildVariantIdxDict pvar, sample_id_list := ss,
        sample_ids := (sortPairs ((sel2.map (firstIndexD ss)).zip sel2)).map (fun t => t.2),
        sample_idxs := some ((sortPairs ((sel2.map (firstIndexD ss)).zip sel2)).map
          (fun t => t.1)),
        pgen_file := store } := by
    rw [init_some_ok hmem2] at h3
    exact (Except.ok.inj h3).symm
  have hz1 : (sel.map (firstIndexD ss)).zip sel =
      sel.map (fun v => (firstIndexD ss v, v)) := map_zip_self _ _
  have hz2 : (sel2.map (firstIndexD ss)).zip sel2 =
      sel2.map (fun v => (firstIndexD ss v, v)) := map_zip_self _ _
  have hnodup : ((sortPairs (sel.map (fun v => (firstIndexD ss v, v)))).map
      Prod.fst).Nodup := by
    have hmapnd : (sel.map (firstIndexD ss)).Nodup :=
      List.Nodup.map_on
        (fun x hx y hy hxy => firstIndexD_inj (hmem1 x hx) (hmem1 y hy) hxy) hnd
    have hpermf : ((sortPairs (sel.map (fun v => (firstIndexD ss v, v)))).map
        Prod.fst).Perm ((sel.map (fun v => (firstIndexD ss v, v))).map Prod.fst) :=
      (sortPairs_perm _).map Prod.fst
    rw [List.map_map] at hpermf
    exact hpermf.nodup_iff.mpr hmapnd
  have hpermpairs : (sortPairs (sel.map (fun v => (firstIndexD ss v, v)))).Perm
      (sortPairs (sel2.map (fun v => (firstIndexD ss v, v)))) :=
    ((sortPairs_perm _).trans (hperm.map _)).trans (sortPairs_perm _).symm
  have hpairs_eq : sortPairs (sel.map (fun v => (firstIndexD ss v, v))) =
      sortPairs (sel2.map (fun v => (firstIndexD ss v, v))) :=
    perm_pairwise_nodup_fst_eq hpermpairs (sortPairs_sorted _) (sortPairs_sorted _) hnodup
  refine ⟨⟨?_, ?_⟩, ?_, ?_, ?_⟩
  · rw [hp]
  · rw [hp]
  · rw [hq] at h2
    have hl : l = (sortPairs ((sel.map (firstIndexD ss)).zip sel)).map (fun t => t.1) :=
      (Option.some.inj h2).symm
    rw [hl]
    exact List.Pairwise.map _ (fun a b hab => hab) (sortPairs_sorted _)
  · rw [hq, hr]
    show (sortPairs ((sel2.map (firstIndexD ss)).zip sel2)).map (fun t => t.2) =
      (sortPairs ((sel.map (firstIndexD ss)).zip sel)).map (fun t => t.2)
    rw [hz1, hz2, hpairs_eq]
  · rw [hq, hr]
    show some ((sortPairs ((sel2.map (firstIndexD ss)).zip sel2)).map (fun t => t.1)) =
      some ((sortPairs ((sel.map (firstIndexD ss)).zip sel)).map (fun t => t.1))
    rw [hz1, hz2, hpairs_eq]

/-- The session constructed over samples [a, b, c] with no selection. -/
def sessionNoSel : Pgen :=
  { pvar_ids := ["v"], num_variants := 1, variant_idx_dict := [("v", 0)],
    sample_id_list := ["a", "b", "c"], sample_ids := ["a", "b", "c"],
    sample_idxs := none, pgen_file := store0 }

/-- The session constructed over samples [a, b, c] selecting c and a: the
stored presentation is store order [a, c] with sorted positions [0, 2]. -/
def sessionCA : Pgen :=
  { pvar_ids := ["v"], num_variants := 1, variant_idx_dict := [("v", 0)],
    sample_id_list := ["a", "b", "c"], sample_ids := ["a", "c"],
    sample_idxs := some [0, 2], pgen_file := store0 }

/-- C10 witness: the selections [c, a] and [a, c] both construct the same
session, with sorted positions [0, 2] and store-order presentation. -/
theorem c10_init_sorted_selection_witness :
    (sessionNoSel.sample_idxs = none ∧ sessionNoSel.sample_ids = ["a", "b", "c"]) ∧
    List.Pairwise (· ≤ ·) [0, 2] ∧
    (sessionCA.sample_ids = sessionCA.sample_ids ∧
     sessionCA.sample_idxs = sessionCA.sample_idxs) :=
  c10_init_sorted_selection ["v"] ["a", "b", "c"] store0 ["c", "a"] ["a", "c"]
    sessionNoSel sessionCA sessionCA [0, 2] rfl rfl rfl (by decide) (by decide) rfl
